import Mathlib

/-!
# mavlink-router: serial baud-rate negotiation and the dynamic endpoint controller

A shallow embedding of `src/mavlink-router/serialendpoint.cpp` and
`src/mavlink-router/controller.cpp`.

* Objects are records, member functions are functions from a world to a result and a world.
* Answers of the operating system and of collaborators that are not part of these two files
  (ioctl results, the frame decoder's classification, `property_set`) are explicit arguments.
* `uint32_t` values are naturals reduced modulo `2^32`, `int` values are integers wrapped to
  32-bit two's complement, `size_t` is taken as 64 bits wide.
-/

namespace MavlinkRouter

/-! ## Machine integers -/

/-- Conversion of an unsigned value to `uint32_t`. -/
def toU32 (n : Nat) : Nat := n % 4294967296

/-- Conversion of a signed value to `uint32_t`. -/
def intToU32 (i : Int) : Nat := (i % 4294967296).toNat

/-- Conversion to `int` (32-bit two's complement wrap-around). -/
def toI32 (i : Int) : Int := (i + 2147483648) % 4294967296 - 2147483648

/-- Conversion of an `int` to `size_t` (64 bits). -/
def toSizeT (i : Int) : Nat := (i % 18446744073709551616).toNat

/-! ## libc: `atoi` -/

/-- The `isspace` class of the C locale: space, `\t`, `\n`, `\v`, `\f`, `\r`. -/
def isspace (c : Char) : Bool :=
  c.toNat = 32 || (9 ≤ c.toNat && c.toNat ≤ 13)

/-- Value of the leading run of decimal digits, continuing from `acc`. -/
def accDigits : Nat → List Char → Nat
  | acc, [] => acc
  | acc, c :: cs =>
    if 48 ≤ c.toNat ∧ c.toNat ≤ 57 then accDigits (acc * 10 + (c.toNat - 48)) cs else acc

/-- The value `strtol(s, NULL, 10)` denotes before range handling: leading white space is
skipped, one optional sign is read, then the longest run of decimal digits. -/
def strtolValue (s : List Char) : Int :=
  match s.dropWhile isspace with
  | '-' :: r => - (accDigits 0 r : Int)
  | '+' :: r => (accDigits 0 r : Int)
  | r => (accDigits 0 r : Int)

/-- Saturation of `strtol` to the range of a 64-bit `long`. -/
def clampLong (v : Int) : Int :=
  if v < -9223372036854775808 then -9223372036854775808
  else if v > 9223372036854775807 then 9223372036854775807
  else v

/-- The function `atoi(s)`, that is `(int) strtol(s, NULL, 10)`. -/
def atoi (s : List Char) : Int := toI32 (clampLong (strtolValue s))

/-- The text `snprintf(value, size, "%u", n)` produces. -/
def formatU (n : Nat) : List Char := Nat.toDigits 10 n

/-! ## Serial endpoint: data -/

/-- Return value of `Endpoint::read_msg`, the frame decoder. The three named results are the
ones `SerialEndpoint::read_msg` tests for; every other return value is `other`. -/
inductive ReadResult where
  | ReadOk
  | ReadUnkownMsg
  | CrcErrorMsg
  | other (ret : Int)
deriving DecidableEq, Repr

/-- How far the three `ioctl` calls of `set_speed` get: `TCGETS2` fails, `TCSETS2` fails,
`TCFLSH` fails, or all succeed. -/
inductive IoctlOutcome where
  | get_failed
  | set_failed
  | flush_failed
  | ok
deriving DecidableEq, Repr

/-- A timer registered with the event loop: its handle and its period in milliseconds. -/
structure Timeout where
  handle : Nat
  timeout_msec : Nat
deriving DecidableEq, Repr

/-- The data members of `SerialEndpoint` (serialendpoint.h). `_change_baudrate_timeout` is
`none` for `nullptr`. `_last_time_stamp` is only used by the optional lamp signalling and is
left out. -/
structure SerialEndpoint where
  fd : Int
  _ttyfd : Int
  _read_error_count : Int
  _baudrate_index : Int
  _try_count : Nat
  _last_baudrate : Nat
  _change_baudrate_timeout : Option Nat
  _available_baudrates : List Nat
deriving DecidableEq, Repr

/-- One serial link together with the parts of its environment it acts on: the timers of the
event loop, the speed the tty device is really configured to, the persisted property
`persist.serial.lastbaudrate`, and the descriptors handed to `::close`. -/
structure World where
  ep : SerialEndpoint
  timeouts : List Timeout
  next_handle : Nat
  tty_baud : Nat
  property : Option (List Char)
  closed : List Int
deriving DecidableEq, Repr

def TTY_BAUD_RETRY_SEC : Nat := 3

def MSEC_PER_SEC : Nat := 1000

/-! ## Collaborators -/

/-- Modelled from the spec: `Mainloop::add_timeout` (mainloop.cpp is not part of the sources),
the event loop's `add_timer(delay, callback, owner) -> handle`. It registers a periodic timer
and returns a fresh handle. -/
def add_timeout (w : World) (timeout_msec : Nat) : Nat × World :=
  (w.next_handle,
   { w with timeouts := ⟨w.next_handle, timeout_msec⟩ :: w.timeouts,
            next_handle := w.next_handle + 1 })

/-- Modelled from the spec: `Mainloop::del_timeout` (mainloop.cpp is not part of the sources),
the event loop's `cancel_timer(handle)`: synchronous, no further firings. -/
def del_timeout (w : World) (h : Nat) : World :=
  { w with timeouts := w.timeouts.filter (fun t => t.handle ≠ h) }

/-- Android `property_get(key, value, default)`: the stored text, or the default when the
property is unset or empty. -/
def property_get (property : Option (List Char)) (dflt : List Char) : List Char :=
  match property with
  | none => dflt
  | some v => if v = [] then dflt else v

/-- Element access `v[i]` of a `std::vector`. An index outside the vector reads whatever lies
there in memory; that value is the argument `oob`. -/
def vec_at (v : List Nat) (i : Nat) (oob : Nat) : Nat :=
  if h : i < v.length then v.get ⟨i, h⟩ else oob

/-! ## Serial endpoint: member functions -/

/-- `SerialEndpoint::_save_baudrate_property`; `set_ok` tells whether `property_set`
succeeded. -/
def _save_baudrate_property (w : World) (baudrate : Nat) (set_ok : Bool) : Bool × World :=
  if set_ok then (true, { w with property := some (formatU baudrate) }) else (false, w)

/-- `SerialEndpoint::_retrieve_baudrate_property`: `atoi` of the property, as `uint32_t`. -/
def _retrieve_baudrate_property (property : Option (List Char)) : Nat :=
  intToU32 (atoi (property_get property ['0']))

/-- The constructor `SerialEndpoint::SerialEndpoint`. -/
def SerialEndpoint.new (property : Option (List Char)) : SerialEndpoint :=
  { fd := -1
    _ttyfd := -1
    _read_error_count := 0
    _baudrate_index := -1
    _try_count := 0
    _last_baudrate := _retrieve_baudrate_property property
    _change_baudrate_timeout := none
    _available_baudrates := [] }

/-- The world right after construction of the link: no timer is registered; the device is at
whatever speed `tty_baud` it had before; `property` is the persisted setting. -/
def World.init (property : Option (List Char)) (tty_baud : Nat) : World :=
  { ep := SerialEndpoint.new property
    timeouts := []
    next_handle := 0
    tty_baud := tty_baud
    property := property
    closed := [] }

/-- `SerialEndpoint::open`; `r` is the result of `::open(path, ...)`. -/
def «open» (w : World) (r : Int) : Int × World :=
  let w1 := { w with ep := { w.ep with _ttyfd := r } }
  if r < 0 then (-1, w1)
  else (r, { w1 with ep := { w1.ep with fd := r } })

/-- `SerialEndpoint::set_speed`. `TCSETS2` is the call that reconfigures the device, so the
device holds the new speed as soon as that call has succeeded. -/
def set_speed (w : World) (baudrate : Nat) (hw : IoctlOutcome) : Int × World :=
  match hw with
  | .get_failed => (-1, w)
  | .set_failed => (-1, w)
  | .flush_failed => (-1, { w with tty_baud := baudrate })
  | .ok => (0, { w with tty_baud := baudrate, ep := { w.ep with _last_baudrate := baudrate } })

/-- `SerialEndpoint::close`. -/
def close (w : World) : World :=
  if w.ep._ttyfd ≥ 0 then
    { w with closed := w.ep._ttyfd :: w.closed, ep := { w.ep with _ttyfd := -1 } }
  else w

/-- The destructor `SerialEndpoint::~SerialEndpoint`: it calls `close()` and nothing else. -/
def SerialEndpoint.destroy (w : World) : World := close w

/-- `SerialEndpoint::add_speeds`; `-22` is `-EINVAL`. -/
def add_speeds (w : World) (bauds : List Nat) (hw : IoctlOutcome) : Int × World :=
  if bauds.length = 0 then (-22, w)
  else
    let w1 := { w with ep := { w.ep with _available_baudrates := bauds } }
    if w1.ep._last_baudrate > 0 then
      (0, (set_speed w1 w1.ep._last_baudrate hw).2)
    else
      (0, (set_speed w1 (toU32 (vec_at bauds 0 0)) hw).2)

/-- `SerialEndpoint::read_msg`. `ret` is what `Endpoint::read_msg` returned, `oob` what an
out-of-range read of `_available_baudrates` yields, `set_ok` whether `property_set` succeeds. -/
def read_msg (w : World) (ret : ReadResult) (oob : Nat) (set_ok : Bool) : ReadResult × World :=
  match ret with
  | .CrcErrorMsg | .ReadUnkownMsg =>
    let w1 := { w with ep := { w.ep with _read_error_count := toI32 (w.ep._read_error_count + 1) } }
    if w1.ep._change_baudrate_timeout = none ∧ w1.ep._read_error_count > 1 then
      let w2 := { w1 with ep := { w1.ep with _read_error_count := 0 } }
      if w2.ep._available_baudrates.length > 1 then
        let r := add_timeout w2 (MSEC_PER_SEC * TTY_BAUD_RETRY_SEC)
        (ret, { r.2 with ep := { r.2.ep with _change_baudrate_timeout := some r.1 } })
      else (ret, w2)
    else (ret, w1)
  | .ReadOk =>
    let w1 := { w with ep := { w.ep with _read_error_count := 0 } }
    match w1.ep._change_baudrate_timeout with
    | some t =>
      let w2 := del_timeout w1 t
      let w3 := { w2 with ep := { w2.ep with _change_baudrate_timeout := none, _try_count := 0 } }
      (ret, (_save_baudrate_property w3
        (toU32 (vec_at w3.ep._available_baudrates (toSizeT w3.ep._baudrate_index) oob)) set_ok).2)
    | none => (ret, w1)
  | .other _ => (ret, w)

/-- Lines 233-238 of `_change_baudrate`: the round-robin choice of the next candidate.
Returns the new `_baudrate_index` and `newbaud`. -/
def next_baudrate (ep : SerialEndpoint) : Int × Nat :=
  let n := ep._available_baudrates.length
  let i1 : Int := toI32 (toSizeT (toI32 (ep._baudrate_index + 1)) % n : Nat)
  let nb1 := toU32 (vec_at ep._available_baudrates (toSizeT i1) 0)
  if nb1 = ep._last_baudrate then
    let i2 : Int := toI32 (toSizeT (toI32 (i1 + 1)) % n : Nat)
    (i2, toU32 (vec_at ep._available_baudrates (toSizeT i2) 0))
  else (i1, nb1)

/-- `SerialEndpoint::_change_baudrate`, the retry-timer callback. The result `false` asks the
event loop to delete the timer. -/
def _change_baudrate (w : World) (hw : IoctlOutcome) : Bool × World :=
  let t := w.ep._try_count
  let w1 := { w with ep := { w.ep with _try_count := toU32 (t + 1) } }
  if t ≥ 2 * w1.ep._available_baudrates.length then
    (false, { w1 with ep := { w1.ep with _try_count := 0, _change_baudrate_timeout := none } })
  else
    let sel := next_baudrate w1.ep
    let w2 := { w1 with ep := { w1.ep with _baudrate_index := sel.1 } }
    (true, (set_speed w2 sel.2 hw).2)

/-- Modelled from the spec: the event loop's dispatch of an expired periodic timer
(mainloop.cpp is not part of the sources), with the convention `_change_baudrate` relies on
(`return false will delete this timer`). A timer that is still registered has its callback
run; when the callback returns `false` the event loop deletes the timer. A handle that is
not registered never fires. -/
def timeout_fired (w : World) (h : Nat) (hw : IoctlOutcome) : World :=
  if w.timeouts.any (fun t => t.handle = h) then
    let r := _change_baudrate w hw
    if r.1 then r.2 else del_timeout r.2 h
  else w

/-- What can happen to a link between two returns to the event loop. -/
inductive Op where
  | «open» (r : Int)
  | set_speed (baudrate : Nat) (hw : IoctlOutcome)
  | add_speeds (bauds : List Nat) (hw : IoctlOutcome)
  | read_msg (ret : ReadResult) (oob : Nat) (set_ok : Bool)
  | timeout_fired (h : Nat) (hw : IoctlOutcome)
  | close
deriving DecidableEq, Repr

/-- One operation on the link. `set_speed` takes a `uint32_t`. -/
def step (w : World) : Op → World
  | .open r => (MavlinkRouter.open w r).2
  | .set_speed b hw => (MavlinkRouter.set_speed w (toU32 b) hw).2
  | .add_speeds bauds hw => (MavlinkRouter.add_speeds w bauds hw).2
  | .read_msg ret oob set_ok => (MavlinkRouter.read_msg w ret oob set_ok).2
  | .timeout_fired h hw => MavlinkRouter.timeout_fired w h hw
  | .close => MavlinkRouter.close w

/-- A sequence of operations, applied from left to right. -/
def run (w : World) (ops : List Op) : World := ops.foldl step w

/-! ## Controller: data and collaborators -/

def READ_BUF_SIZE : Nat := 256

def IP_ADDR_LEN_MAX : Nat := 15

def COMMAND_LEN_MAX : Nat := 256

def ADD_ENDPOINT_COMMAND : List Char := ['A', 'D', 'D', 'E', 'N', 'D', 'P', 'O', 'I', 'N', 'T']

def REMOVE_ENDPOINT_COMMAND : List Char :=
  ['R', 'E', 'M', 'O', 'V', 'E', 'E', 'N', 'D', 'P', 'O', 'I', 'N', 'T']

def ACK_OK : List Char := ['O', 'K']

def ACK_FAIL : List Char := ['F', 'A', 'I', 'L']

def COMMAND_ID_ADD_ENDPOINT : Int := 0

def COMMAND_ID_REMOVE_ENDPOINT : Int := 1

/-- What the controller does to its collaborators, in the order it does it. `udp_new` and
`udp_delete` are the construction and the destruction of the `UdpEndpoint` object. -/
inductive Call where
  | udp_new
  | udp_open (ip : List Char) (port : Nat)
  | add_udp_endpoint (ip : List Char) (port : Nat)
  | remove_udp_endpoint (ip : List Char) (port : Nat)
  | udp_close
  | udp_delete
deriving DecidableEq, Repr

/-- The collaborators of the controller that are declared outside controller.cpp, over a type
`M` of registry states: the result of `UdpEndpoint::open(ip, port, false)`, and
`Mainloop::add_udp_endpoint` and `Mainloop::remove_udp_endpoint` with the registry they
leave. -/
structure Collaborators (M : Type) where
  udp_open : List Char → Nat → Int
  add_udp_endpoint : M → List Char → Nat → Bool × M
  remove_udp_endpoint : M → List Char → Nat → Bool × M

/-- The registry held by the event loop and the calls made so far. -/
structure Controller (M : Type) where
  mainloop : M
  calls : List Call

/-- Append one call to the record of calls. -/
def Controller.call {M : Type} (c : Controller M) (e : Call) : Controller M :=
  { c with calls := c.calls ++ [e] }

/-- A `std::unique_ptr` leaving scope: the object is deleted if the pointer still owns it. -/
def unique_ptr_scope_exit {M : Type} (owns : Bool) (c : Controller M) : Controller M :=
  if owns then c.call .udp_delete else c

/-! ## libc: strings -/

/-- The C string stored in a buffer: the bytes before the first NUL. -/
def c_str (buf : List Char) : List Char := buf.takeWhile (fun ch => ch.toNat ≠ 0)

/-- One call of `strtok` with the separator set `":"` on the text still to be scanned: leading
separators are skipped; NULL (`none`) if nothing is left; else the token up to the next
separator, and the text after that separator for the next call. -/
def strtok (s : List Char) : Option (List Char × List Char) :=
  match s.dropWhile (fun ch => ch = ':') with
  | [] => none
  | c :: cs =>
    some ((c :: cs).takeWhile (fun ch => ch ≠ ':'),
          ((c :: cs).dropWhile (fun ch => ch ≠ ':')).drop 1)

/-! ## Controller: member functions -/

/-- `Controller::_add_dynamic_endpoint`. The local `std::unique_ptr` owns the new endpoint;
`release()` gives the ownership up without deleting the object. -/
def _add_dynamic_endpoint {M : Type} (env : Collaborators M) (c : Controller M)
    (ipaddr : List Char) (port : Nat) : Bool × Controller M :=
  let c1 := c.call .udp_new
  let c2 := c1.call (.udp_open ipaddr port)
  if env.udp_open ipaddr port < 0 then
    -- udp_endpoint.release(); return false;
    (false, unique_ptr_scope_exit false c2)
  else
    let r := env.add_udp_endpoint c2.mainloop ipaddr port
    let c3 := ({ c2 with mainloop := r.2 } : Controller M).call (.add_udp_endpoint ipaddr port)
    if !r.1 then
      -- udp_endpoint->close(); return false;
      (false, unique_ptr_scope_exit true (c3.call .udp_close))
    else
      -- udp_endpoint.release(); return true;
      (true, unique_ptr_scope_exit false c3)

/-- `Controller::_remove_dynamic_endpoint`. -/
def _remove_dynamic_endpoint {M : Type} (env : Collaborators M) (c : Controller M)
    (ipaddr : List Char) (port : Nat) : Bool × Controller M :=
  let r := env.remove_udp_endpoint c.mainloop ipaddr port
  (r.1, ({ c with mainloop := r.2 } : Controller M).call (.remove_udp_endpoint ipaddr port))

/-- `Controller::_parse_msg(msg, len)`. `msg` is the content of the buffer, read as a C
string. -/
def _parse_msg {M : Type} (env : Collaborators M) (c : Controller M)
    (msg : List Char) (len : Int) : Bool × Controller M :=
  let p := c_str msg
  if len > COMMAND_LEN_MAX ∨ p.length > COMMAND_LEN_MAX then (false, c)
  else
    match strtok p with
    | none => (false, c)
    | some (str, rest1) =>
      let command : Int :=
        if str = ADD_ENDPOINT_COMMAND then COMMAND_ID_ADD_ENDPOINT
        else if str = REMOVE_ENDPOINT_COMMAND then COMMAND_ID_REMOVE_ENDPOINT
        else -1
      if command ≠ -1 then
        match strtok rest1 with
        | none => (false, c)
        | some (ipaddress, rest2) =>
          match strtok rest2 with
          | none => (false, c)
          | some (str2, _) =>
            let port := atoi str2
            if port > 0 then
              if command = COMMAND_ID_ADD_ENDPOINT then
                _add_dynamic_endpoint env c ipaddress port.toNat
              else if command = COMMAND_ID_REMOVE_ENDPOINT then
                _remove_dynamic_endpoint env c ipaddress port.toNat
              else (false, c)
            else (false, c)
      else (false, c)

/-- `Controller::handle_read`. `recv` is what `recvfrom` delivered into the zeroed buffer of
`READ_BUF_SIZE` bytes: `none` for the result -1, else the bytes of the datagram (at most
`READ_BUF_SIZE` are stored, the rest of the buffer stays zero). `beyond` is the memory that
follows the buffer: `strlen` and `strtok` run into it when all `READ_BUF_SIZE` bytes are
filled and none of them is NUL. The result is the acknowledgement sent back, if any. -/
def handle_read {M : Type} (env : Collaborators M) (c : Controller M)
    (beyond : List Char) (recv : Option (List Char)) : Option (List Char) × Controller M :=
  match recv with
  | none => (none, c)
  | some data =>
    let received := data.take READ_BUF_SIZE
    if received.length = 0 then (none, c)
    else
      let buf := received ++ List.replicate (READ_BUF_SIZE - received.length) (Char.ofNat 0)
      let r := _parse_msg env c (buf ++ beyond) received.length
      if r.1 then (some ACK_OK, r.2) else (some ACK_FAIL, r.2)

/-! ## The request grammar in the words of the specification -/

/-- Split a text at every colon; empty fields are kept. -/
def split_colon : List Char → List (List Char)
  | [] => [[]]
  | c :: cs =>
    if c = ':' then [] :: split_colon cs
    else
      match split_colon cs with
      | [] => [[c]]
      | f :: fs => (c :: f) :: fs

/-- The fields of a datagram that are not empty. -/
def fields (s : List Char) : List (List Char) := (split_colon s).filter (fun f => f ≠ [])

/-- A decimal integer: one or more decimal digits. -/
def is_decimal (s : List Char) : Bool := s ≠ [] && s.all Char.isDigit

/-- The request grammar as the specification words it: exactly three colon-separated fields
`COMMAND:ADDRESS:PORT`, COMMAND one of the two commands, ADDRESS of at most 15 characters,
PORT a decimal integer greater than 0. -/
def spec_request (d : List Char) : Bool :=
  match split_colon d with
  | [cmd, addr, port] =>
    (cmd = ADD_ENDPOINT_COMMAND || cmd = REMOVE_ENDPOINT_COMMAND) &&
    decide (addr.length ≤ IP_ADDR_LEN_MAX) && is_decimal port && decide (0 < accDigits 0 port)
  | _ => false

/-- What `_parse_msg` needs to act on a datagram: it and its C string are at most 256 bytes
long, there are at least three non-empty fields, the first is a command and `atoi` of the
third is positive. -/
def actionable (msg : List Char) (len : Int) : Bool :=
  decide (len ≤ 256) && decide ((c_str msg).length ≤ 256) &&
  match fields (c_str msg) with
  | cmd :: _ :: port :: _ =>
    (decide (cmd = ADD_ENDPOINT_COMMAND) || decide (cmd = REMOVE_ENDPOINT_COMMAND)) &&
    decide (0 < atoi port)
  | _ => false

/-! ## Predicates used in the statements -/

/-- The event loop holds exactly the timer the handle names, with the 3 second period, and no
timer when the handle is null. -/
def TimerInv (w : World) : Prop :=
  w.timeouts =
    match w.ep._change_baudrate_timeout with
    | none => []
    | some h => [⟨h, 3000⟩]

/-- The operation makes a `set_speed` call whose `TCSETS2` succeeds and whose `TCFLSH`
fails. -/
def Op.flush_fails : Op → Bool
  | .set_speed _ .flush_failed => true
  | .add_speeds _ .flush_failed => true
  | .timeout_fired _ .flush_failed => true
  | _ => false

/-- A decode outcome other than `ReadOk`. -/
def Op.is_failed_read : Op → Bool
  | .read_msg ret _ _ => decide (ret ≠ .ReadOk)
  | _ => false

/-- An expiry of the timer with handle `h`. -/
def Op.is_firing (h : Nat) : Op → Bool
  | .timeout_fired t _ => decide (t = h)
  | _ => false

/-- What happens during a negotiation that is not ended from outside: expiries of its timer
and decode outcomes other than `ReadOk`. -/
def Op.in_negotiation (h : Nat) (op : Op) : Bool := Op.is_firing h op || Op.is_failed_read op

/-- Number of timer expiries in a sequence of operations. -/
def firings (h : Nat) (ops : List Op) : Nat := ops.countP (Op.is_firing h)

/-- The negotiation with timer `h` is running and `k` firings have been counted. -/
structure Negotiating (h k : Nat) (bauds : List Nat) (w : World) : Prop where
  handle : w.ep._change_baudrate_timeout = some h
  timers : w.timeouts = [⟨h, 3000⟩]
  tries : w.ep._try_count = k
  cands : w.ep._available_baudrates = bauds

/-! ## Concrete links, datagrams and collaborators -/

/-- A link opened on descriptor 5 with the single candidate 57600, no timer, and one decode
error counted so far. -/
def single_candidate_link : World :=
  run (World.init none 9600) [.open 5, .add_speeds [57600] .ok, .read_msg .CrcErrorMsg 0 true]

/-- A link opened on descriptor 5 with candidates 57600 and 115200 on which one decode error
has been counted. -/
def two_candidate_link : World :=
  run (World.init none 9600)
    [.open 5, .add_speeds [57600, 115200] .ok, .read_msg .CrcErrorMsg 0 true]

/-- A link with candidates 57600 and 115200, opened on descriptor 5, whose retry timer has
just been armed by two consecutive decode errors. -/
def armed_link : World :=
  run (World.init none 9600)
    [.open 5, .add_speeds [57600, 115200] .ok,
     .read_msg .CrcErrorMsg 0 true, .read_msg .ReadUnkownMsg 0 true]

/-- A link opened on descriptor 5 with the candidates 57600, 57600 and 115200, configured
to 57600, with the retry timer armed. -/
def duplicate_candidates_link : World :=
  run (World.init none 9600)
    [.open 5, .add_speeds [57600, 57600, 115200] .ok,
     .read_msg .CrcErrorMsg 0 true, .read_msg .CrcErrorMsg 0 true]

/-- A link with the persisted rate 57600 on a device that is at 115200, opened on
descriptor 5; the speed change of `add_speeds` failed at `TCGETS2`, then two decode errors
armed the retry timer. -/
def out_of_step_link : World :=
  run (World.init (some "57600".toList) 115200)
    [.open 5, .add_speeds [57600, 115200] .get_failed,
     .read_msg .CrcErrorMsg 0 true, .read_msg .CrcErrorMsg 0 true]

/-- The datagram `ADDENDPOINT:1.2.3.4:14550:x`, with four fields. -/
def four_field_datagram : List Char := "ADDENDPOINT:1.2.3.4:14550:x".toList

/-- Modelled from the spec: a registry (mainloop.cpp is not part of the sources) with
`add(endpoint) -> bool` failing on a duplicate and `remove(address, port) -> bool` failing
when nothing matches, kept as the list of registered (address, port) pairs; every
`UdpEndpoint::open` succeeds with descriptor 7. It is the concrete collaborator of the
examples; the theorems hold for all collaborators. -/
def list_registry : Collaborators (List (List Char × Nat)) where
  udp_open := fun _ _ => 7
  add_udp_endpoint := fun m ip port =>
    if (ip, port) ∈ m then (false, m) else (true, (ip, port) :: m)
  remove_udp_endpoint := fun m ip port =>
    if (ip, port) ∈ m then (true, m.filter (fun e => e ≠ (ip, port))) else (false, m)

/-- Modelled from the spec: the registry `list_registry` on a system where every
`UdpEndpoint::open` fails with -1. -/
def failing_open_registry : Collaborators (List (List Char × Nat)) :=
  { list_registry with udp_open := fun _ _ => -1 }

/-! ## Arithmetic of the conversions -/

theorem toI32_of_range (i : Int) (h1 : -2147483648 ≤ i) (h2 : i < 2147483648) : toI32 i = i := by
  unfold toI32
  omega

theorem toSizeT_natCast (n : Nat) (h : n < 18446744073709551616) : toSizeT (n : Int) = n := by
  unfold toSizeT
  omega

theorem toU32_lt (n : Nat) : toU32 n < 4294967296 := by
  unfold toU32
  omega

theorem toU32_of_lt (n : Nat) (h : n < 4294967296) : toU32 n = n := by
  unfold toU32
  omega

/-! ## The retry timer and the timer handle -/

theorem timerInv_init (property : Option (List Char)) (tty_baud : Nat) :
    TimerInv (World.init property tty_baud) := by
  simp [TimerInv, World.init, SerialEndpoint.new]

theorem set_speed_timeouts (w : World) (b : Nat) (hw : IoctlOutcome) :
    (set_speed w b hw).2.timeouts = w.timeouts ∧
    (set_speed w b hw).2.ep._change_baudrate_timeout = w.ep._change_baudrate_timeout := by
  cases hw <;> simp [set_speed]

theorem timerInv_set_speed (w : World) (b : Nat) (hw : IoctlOutcome) (h : TimerInv w) :
    TimerInv (set_speed w b hw).2 := by
  unfold TimerInv at *
  rw [(set_speed_timeouts w b hw).1, (set_speed_timeouts w b hw).2]
  exact h

theorem timerInv_read_msg (w : World) (ret : ReadResult) (oob : Nat) (set_ok : Bool)
    (h : TimerInv w) : TimerInv (read_msg w ret oob set_ok).2 := by
  unfold TimerInv at *
  cases ret with
  | ReadOk =>
    cases ht : w.ep._change_baudrate_timeout with
    | none => simp [read_msg, ht] at h ⊢; exact h
    | some t =>
      rw [ht] at h
      cases set_ok <;>
        simp [read_msg, ht, del_timeout, _save_baudrate_property, h]
  | ReadUnkownMsg =>
    cases ht : w.ep._change_baudrate_timeout with
    | none =>
      rw [ht] at h
      simp only [read_msg, ht]
      split_ifs <;> simp [add_timeout, h, ht, MSEC_PER_SEC, TTY_BAUD_RETRY_SEC]
    | some t =>
      rw [ht] at h
      simp [read_msg, ht, h]
  | CrcErrorMsg =>
    cases ht : w.ep._change_baudrate_timeout with
    | none =>
      rw [ht] at h
      simp only [read_msg, ht]
      split_ifs <;> simp [add_timeout, h, ht, MSEC_PER_SEC, TTY_BAUD_RETRY_SEC]
    | some t =>
      rw [ht] at h
      simp [read_msg, ht, h]
  | other r => simpa [read_msg] using h

theorem change_baudrate_exhausted (w : World) (hw : IoctlOutcome)
    (h : 2 * w.ep._available_baudrates.length ≤ w.ep._try_count) :
    _change_baudrate w hw =
      (false, { w with ep := { w.ep with _try_count := 0, _change_baudrate_timeout := none } }) := by
  simp [_change_baudrate, h]

theorem change_baudrate_continue (w : World) (hw : IoctlOutcome)
    (h : w.ep._try_count < 2 * w.ep._available_baudrates.length) :
    _change_baudrate w hw =
      (true, (set_speed
        { w with ep := { w.ep with _try_count := toU32 (w.ep._try_count + 1),
                                   _baudrate_index := (next_baudrate w.ep).1 } }
        (next_baudrate w.ep).2 hw).2) := by
  have h2 : ¬ (2 * w.ep._available_baudrates.length ≤ w.ep._try_count) := by omega
  simp [_change_baudrate, h2, next_baudrate]

theorem timerInv_timeout_fired (w : World) (t : Nat) (hw : IoctlOutcome) (h : TimerInv w) :
    TimerInv (timeout_fired w t hw) := by
  unfold timeout_fired
  by_cases hany : (w.timeouts.any (fun x => x.handle = t)) = true
  · rw [if_pos hany]
    by_cases hex : 2 * w.ep._available_baudrates.length ≤ w.ep._try_count
    · -- the callback gave up: the event loop deletes the timer
      rw [change_baudrate_exhausted w hw hex]
      unfold TimerInv at *
      cases ht : w.ep._change_baudrate_timeout with
      | none => rw [ht] at h; simp [h] at hany
      | some t0 =>
        rw [ht] at h
        simp [h] at hany
        simp [del_timeout, h, hany]
    · -- the callback changed the speed and keeps the timer
      rw [change_baudrate_continue w hw (by omega)]
      simp only [if_true]
      apply timerInv_set_speed
      unfold TimerInv at *
      simpa using h
  · rw [if_neg hany]
    exact h

theorem timerInv_step (w : World) (op : Op) (h : TimerInv w) : TimerInv (step w op) := by
  cases op with
  | «open» r =>
    unfold TimerInv at *
    simp only [step, MavlinkRouter.open]
    split_ifs <;> simpa using h
  | set_speed b hw => exact timerInv_set_speed w _ hw h
  | add_speeds bauds hw =>
    simp only [step, add_speeds]
    split_ifs
    · exact h
    · apply timerInv_set_speed; unfold TimerInv at *; simpa using h
    · apply timerInv_set_speed; unfold TimerInv at *; simpa using h
  | read_msg ret oob set_ok => exact timerInv_read_msg w ret oob set_ok h
  | timeout_fired t hw => exact timerInv_timeout_fired w t hw h
  | close =>
    unfold TimerInv at *
    simp only [step, close]
    split_ifs <;> simpa using h

theorem timerInv_run (ops : List Op) (w : World) (h : TimerInv w) : TimerInv (run w ops) := by
  induction ops generalizing w with
  | nil => exact h
  | cons op ops ih => exact ih (step w op) (timerInv_step w op h)

/-- C8: from construction on, after every sequence of operations on a serial link (decode
outcomes of `read_msg`, retry-timer firings, and also `open`, `set_speed`, `add_speeds` and
`close`), at most one retry timer of the link is registered with the event loop, and the
handle `_change_baudrate_timeout` is non-null exactly when a timer is registered: it then
names that timer. -/
theorem C8_at_most_one_timer_live (property : Option (List Char)) (tty_baud : Nat)
    (ops : List Op) :
    (run (World.init property tty_baud) ops).timeouts.length ≤ 1 ∧
    ((run (World.init property tty_baud) ops).ep._change_baudrate_timeout ≠ none ↔
      (run (World.init property tty_baud) ops).timeouts ≠ []) ∧
    ∀ h, (run (World.init property tty_baud) ops).ep._change_baudrate_timeout = some h ↔
      ∃ t ∈ (run (World.init property tty_baud) ops).timeouts, t.handle = h := by
  have hinv := timerInv_run ops _ (timerInv_init property tty_baud)
  unfold TimerInv at hinv
  cases ht : (run (World.init property tty_baud) ops).ep._change_baudrate_timeout with
  | none => rw [ht] at hinv; simp [hinv]
  | some t => rw [ht] at hinv; simp [hinv, eq_comm]

/-! ## Decode errors: `read_msg` on `CrcErrorMsg` and `ReadUnkownMsg` -/

/-- C10, counterexample: with a single candidate, no timer armed and one error already
counted, a further crc-error does not start a negotiation (no timer is armed), yet the error
count does not keep its incremented value 2: it is reset to 0. -/
theorem C10_count_reset_without_negotiation :
    single_candidate_link.ep._read_error_count = 1 ∧
    single_candidate_link.ep._change_baudrate_timeout = none ∧
    single_candidate_link.ep._available_baudrates.length = 1 ∧
    (read_msg single_candidate_link .CrcErrorMsg 0 true).2.timeouts = [] ∧
    (read_msg single_candidate_link .CrcErrorMsg 0 true).2.ep._change_baudrate_timeout = none ∧
    (read_msg single_candidate_link .CrcErrorMsg 0 true).2.ep._read_error_count = 0 ∧
    (read_msg single_candidate_link .CrcErrorMsg 0 true).2.ep._read_error_count ≠
      single_candidate_link.ep._read_error_count + 1 := by
  decide

/-- C10, amended: on a crc-error or unknown-message outcome `read_msg` returns the outcome and
increments the error count by one (below `INT_MAX`). If no timer is armed and the incremented
count is greater than 1, the count is reset to zero, and the 3000 ms retry timer is armed
(fresh handle stored, timer registered) if and only if the candidate list has more than one
entry. If a timer is armed or the incremented count is at most 1, the count keeps its
incremented value and no timer is armed or cancelled. Nothing else changes. -/
theorem C10_read_msg_error_outcome (w : World) (ret : ReadResult) (oob : Nat) (set_ok : Bool)
    (hret : ret = .CrcErrorMsg ∨ ret = .ReadUnkownMsg)
    (hlo : -2147483648 ≤ w.ep._read_error_count)
    (hhi : w.ep._read_error_count < 2147483647) :
    (read_msg w ret oob set_ok).1 = ret ∧
    ((w.ep._change_baudrate_timeout = none ∧ w.ep._read_error_count + 1 > 1 ∧
        1 < w.ep._available_baudrates.length) →
      (read_msg w ret oob set_ok).2 =
        { w with
          ep := { w.ep with _read_error_count := 0,
                            _change_baudrate_timeout := some w.next_handle }
          timeouts := ⟨w.next_handle, 3000⟩ :: w.timeouts
          next_handle := w.next_handle + 1 }) ∧
    ((w.ep._change_baudrate_timeout = none ∧ w.ep._read_error_count + 1 > 1 ∧
        ¬ 1 < w.ep._available_baudrates.length) →
      (read_msg w ret oob set_ok).2 = { w with ep := { w.ep with _read_error_count := 0 } }) ∧
    (¬ (w.ep._change_baudrate_timeout = none ∧ w.ep._read_error_count + 1 > 1) →
      (read_msg w ret oob set_ok).2 =
        { w with ep := { w.ep with _read_error_count := w.ep._read_error_count + 1 } }) ∧
    ((read_msg w ret oob set_ok).2.timeouts ≠ w.timeouts ↔
      (w.ep._change_baudrate_timeout = none ∧ w.ep._read_error_count + 1 > 1 ∧
        1 < w.ep._available_baudrates.length)) := by
  have hc : toI32 (w.ep._read_error_count + 1) = w.ep._read_error_count + 1 :=
    toI32_of_range _ (by omega) (by omega)
  have hcons : ∀ (t : Timeout) (l : List Timeout), t :: l ≠ l := by
    intro t l h
    have := congrArg List.length h
    simp at this
  rcases hret with rfl | rfl
  · refine ⟨by simp only [read_msg]; split_ifs <;> rfl, ?_, ?_, ?_, ?_⟩
    · rintro ⟨h1, h2, h3⟩
      simp [read_msg, hc, h1, h2, h3, add_timeout, MSEC_PER_SEC, TTY_BAUD_RETRY_SEC]
    · rintro ⟨h1, h2, h3⟩
      simp [read_msg, hc, h1, h2, h3]
    · intro h
      simp only [read_msg, hc]
      rw [if_neg h]
    · by_cases h12 : w.ep._change_baudrate_timeout = none ∧ w.ep._read_error_count + 1 > 1
      · by_cases h3 : 1 < w.ep._available_baudrates.length
        · simp [read_msg, hc, h12.1, h12.2, h3, add_timeout, hcons]
        · simp [read_msg, hc, h12.1, h12.2, h3]
      · simp only [read_msg, hc]
        rw [if_neg h12]
        simp only [ne_eq, not_true_eq_false, false_iff]
        tauto
  · refine ⟨by simp only [read_msg]; split_ifs <;> rfl, ?_, ?_, ?_, ?_⟩
    · rintro ⟨h1, h2, h3⟩
      simp [read_msg, hc, h1, h2, h3, add_timeout, MSEC_PER_SEC, TTY_BAUD_RETRY_SEC]
    · rintro ⟨h1, h2, h3⟩
      simp [read_msg, hc, h1, h2, h3]
    · intro h
      simp only [read_msg, hc]
      rw [if_neg h]
    · by_cases h12 : w.ep._change_baudrate_timeout = none ∧ w.ep._read_error_count + 1 > 1
      · by_cases h3 : 1 < w.ep._available_baudrates.length
        · simp [read_msg, hc, h12.1, h12.2, h3, add_timeout, hcons]
        · simp [read_msg, hc, h12.1, h12.2, h3]
      · simp only [read_msg, hc]
        rw [if_neg h12]
        simp only [ne_eq, not_true_eq_false, false_iff]
        tauto

/-- C10, witness: the second consecutive crc-error on a link with two candidates. -/
theorem C10_read_msg_error_outcome_witness :
    (read_msg two_candidate_link .CrcErrorMsg 0 true).2.ep._change_baudrate_timeout = some 0 ∧
    (read_msg two_candidate_link .CrcErrorMsg 0 true).2.timeouts = [⟨0, 3000⟩] ∧
    (read_msg two_candidate_link .CrcErrorMsg 0 true).2.ep._read_error_count = 0 := by
  have h := (C10_read_msg_error_outcome two_candidate_link .CrcErrorMsg 0 true (Or.inl rfl)
    (by decide) (by decide)).2.1 (by decide)
  rw [h]
  decide

/-! ## The initial rate: `add_speeds` after construction -/

theorem vec_at_zero (b : Nat) (bs : List Nat) (oob : Nat) : vec_at (b :: bs) 0 oob = b := by
  simp [vec_at]

/-- C9, counterexample: with no persisted rate and the candidate list
`[4295024896, 57600]`, whose first entry is `2^32 + 57600`, `add_speeds` with the hardware
calls succeeding configures 57600, not the first candidate: `set_speed` takes a
`uint32_t`. -/
theorem C9_first_candidate_truncated :
    _retrieve_baudrate_property none = 0 ∧
    (add_speeds (MavlinkRouter.open (World.init none 9600) 5).2
      [4295024896, 57600] .ok).1 = 0 ∧
    (add_speeds (MavlinkRouter.open (World.init none 9600) 5).2
      [4295024896, 57600] .ok).2.tty_baud = 57600 ∧
    (add_speeds (MavlinkRouter.open (World.init none 9600) 5).2
      [4295024896, 57600] .ok).2.ep._last_baudrate = 57600 ∧
    (add_speeds (MavlinkRouter.open (World.init none 9600) 5).2
      [4295024896, 57600] .ok).2.tty_baud ≠ 4295024896 := by
  decide

/-- C9, amended: after construction with the persisted setting `property`, opening the
device (with any result) and `add_speeds` on a non-empty candidate list whose first entry is
a 32-bit speed (below `2^32`), with the hardware calls succeeding, the speed configured on
the device and recorded in `_last_baudrate` is the persisted rate read at construction when
that rate is non-zero, and otherwise the first candidate. With candidates
`[57600, 115200, 921600]` and no persisted rate it is 57600. -/
theorem C9_add_speeds_initial_rate (property : Option (List Char)) (tty_baud : Nat) (r : Int)
    (b : Nat) (bs : List Nat) (hfit : b < 4294967296) :
    (add_speeds (MavlinkRouter.open (World.init property tty_baud) r).2 (b :: bs) .ok).1 = 0 ∧
    (add_speeds (MavlinkRouter.open (World.init property tty_baud) r).2 (b :: bs) .ok).2.tty_baud =
      (if _retrieve_baudrate_property property ≠ 0 then _retrieve_baudrate_property property
       else b) ∧
    (add_speeds (MavlinkRouter.open (World.init property tty_baud) r).2
        (b :: bs) .ok).2.ep._last_baudrate =
      (if _retrieve_baudrate_property property ≠ 0 then _retrieve_baudrate_property property
       else b) ∧
    (add_speeds (MavlinkRouter.open (World.init property tty_baud) r).2
        (b :: bs) .ok).2.ep._available_baudrates = b :: bs ∧
    (add_speeds (MavlinkRouter.open (World.init none tty_baud) r).2
        [57600, 115200, 921600] .ok).2.tty_baud = 57600 := by
  have hlast : (MavlinkRouter.open (World.init property tty_baud) r).2.ep._last_baudrate =
      _retrieve_baudrate_property property := by
    simp only [MavlinkRouter.open, World.init, SerialEndpoint.new]
    split_ifs <;> rfl
  have hnone : _retrieve_baudrate_property none = 0 := by decide
  have hlast0 : (MavlinkRouter.open (World.init none tty_baud) r).2.ep._last_baudrate = 0 := by
    simp only [MavlinkRouter.open, World.init, SerialEndpoint.new]
    split_ifs <;> exact hnone
  refine ⟨?_, ?_, ?_, ?_, ?_⟩
  · simp only [add_speeds]
    split_ifs <;> simp_all
  · by_cases hp : _retrieve_baudrate_property property = 0
    · simp [add_speeds, hlast, hp, set_speed, vec_at_zero, toU32_of_lt b hfit]
    · have hpos : 0 < _retrieve_baudrate_property property := Nat.pos_of_ne_zero hp
      simp [add_speeds, hlast, hp, hpos, set_speed]
  · by_cases hp : _retrieve_baudrate_property property = 0
    · simp [add_speeds, hlast, hp, set_speed, vec_at_zero, toU32_of_lt b hfit]
    · have hpos : 0 < _retrieve_baudrate_property property := Nat.pos_of_ne_zero hp
      simp [add_speeds, hlast, hp, hpos, set_speed]
  · by_cases hp : _retrieve_baudrate_property property = 0
    · simp [add_speeds, hlast, hp, set_speed]
    · have hpos : 0 < _retrieve_baudrate_property property := Nat.pos_of_ne_zero hp
      simp [add_speeds, hlast, hp, hpos, set_speed]
  · simp [add_speeds, hlast0, set_speed, vec_at_zero, toU32]

/-- C9, witness: the persisted rate 115200 wins over the first candidate 57600. -/
theorem C9_add_speeds_initial_rate_witness :
    (add_speeds (MavlinkRouter.open (World.init (some "115200".toList) 9600) 5).2
      [57600, 115200] .ok).2.tty_baud = 115200 := by
  have h := (C9_add_speeds_initial_rate (some "115200".toList) 9600 5
    57600 [115200] (by decide)).2.1
  rw [h]
  decide

/-! ## Closing the link -/

/-- C4, the code at the failing input: closing (or destroying) a link whose retry timer is
armed does not cancel the timer. It stays registered with the event loop and the handle
stays set, and the next expiry still runs `_change_baudrate`: the attempt count goes from 0
to 1 and the candidate index from -1 to 1 (the speed change itself fails on the closed
descriptor). -/
theorem C4_close_keeps_timer_armed :
    armed_link.ep._change_baudrate_timeout = some 0 ∧
    armed_link.timeouts = [⟨0, 3000⟩] ∧
    (close armed_link).timeouts = [⟨0, 3000⟩] ∧
    (close armed_link).ep._change_baudrate_timeout = some 0 ∧
    (SerialEndpoint.destroy armed_link).timeouts = [⟨0, 3000⟩] ∧
    (close armed_link).ep._try_count = 0 ∧
    (close armed_link).ep._baudrate_index = -1 ∧
    (timeout_fired (close armed_link) 0 .get_failed).ep._try_count = 1 ∧
    (timeout_fired (close armed_link) 0 .get_failed).ep._baudrate_index = 1 ∧
    (timeout_fired (close armed_link) 0 .get_failed).timeouts = [⟨0, 3000⟩] := by
  decide

/-- What `close` does in every state: an open descriptor is passed to `::close` once and
`_ttyfd` becomes -1, a second `close` does nothing, and the timers registered with the event
loop and the handle `_change_baudrate_timeout` are the same after `close` as before. The
destructor only calls `close`. -/
theorem close_releases_descriptor_only (w : World) :
    (close w).timeouts = w.timeouts ∧
    (close w).ep._change_baudrate_timeout = w.ep._change_baudrate_timeout ∧
    (close w).ep._try_count = w.ep._try_count ∧
    (close w).ep._ttyfd < 0 ∧
    (0 ≤ w.ep._ttyfd → (close w).closed = w.ep._ttyfd :: w.closed ∧ (close w).ep._ttyfd = -1) ∧
    (w.ep._ttyfd < 0 → close w = w) ∧
    close (close w) = close w ∧
    SerialEndpoint.destroy w = close w := by
  by_cases h : 0 ≤ w.ep._ttyfd
  · have hn : ¬ (w.ep._ttyfd < 0) := by omega
    simp [close, h, hn, SerialEndpoint.destroy]
  · have hn : w.ep._ttyfd < 0 := by omega
    simp [close, h, hn, SerialEndpoint.destroy]

/-! ## The device speed and the field `_last_baudrate` -/

/-- C6, counterexample: with the persisted rate 115200 and a device that is at 9600, the
field `_last_baudrate` is 115200 right after construction, and it still is after the device
has been opened and `add_speeds` has run with a `set_speed` that fails at `TCGETS2`, while
the device stays at 9600. -/
theorem C6_last_baudrate_differs_from_device :
    (World.init (some "115200".toList) 9600).ep._last_baudrate = 115200 ∧
    (World.init (some "115200".toList) 9600).tty_baud = 9600 ∧
    (run (World.init (some "115200".toList) 9600)
      [.open 5, .add_speeds [57600, 115200] .get_failed]).ep._last_baudrate = 115200 ∧
    (run (World.init (some "115200".toList) 9600)
      [.open 5, .add_speeds [57600, 115200] .get_failed]).tty_baud = 9600 := by
  decide

theorem read_msg_rate (w : World) (ret : ReadResult) (oob : Nat) (set_ok : Bool) :
    (read_msg w ret oob set_ok).2.tty_baud = w.tty_baud ∧
    (read_msg w ret oob set_ok).2.ep._last_baudrate = w.ep._last_baudrate := by
  cases ret with
  | ReadOk =>
    cases ht : w.ep._change_baudrate_timeout with
    | none => simp [read_msg, ht]
    | some t => cases set_ok <;> simp [read_msg, ht, del_timeout, _save_baudrate_property]
  | ReadUnkownMsg =>
    simp only [read_msg]
    split_ifs <;> simp [add_timeout]
  | CrcErrorMsg =>
    simp only [read_msg]
    split_ifs <;> simp [add_timeout]
  | other r => simp [read_msg]

theorem rate_sync_step (w : World) (op : Op) (hop : Op.flush_fails op = false)
    (h : w.tty_baud = w.ep._last_baudrate) :
    (step w op).tty_baud = (step w op).ep._last_baudrate := by
  cases op with
  | «open» r =>
    simp only [step, MavlinkRouter.open]
    split_ifs <;> simpa using h
  | set_speed b hw => cases hw <;> simp_all [step, set_speed, Op.flush_fails]
  | add_speeds bauds hw =>
    simp only [step, add_speeds]
    split_ifs <;> cases hw <;> simp_all [set_speed, Op.flush_fails]
  | read_msg ret oob set_ok =>
    simp only [step]
    rw [(read_msg_rate w ret oob set_ok).1, (read_msg_rate w ret oob set_ok).2]
    exact h
  | timeout_fired t hw =>
    simp only [step, timeout_fired]
    by_cases hany : (w.timeouts.any (fun x => x.handle = t)) = true
    · rw [if_pos hany]
      by_cases hex : 2 * w.ep._available_baudrates.length ≤ w.ep._try_count
      · rw [change_baudrate_exhausted w hw hex]
        simpa [del_timeout] using h
      · rw [change_baudrate_continue w hw (by omega)]
        cases hw <;> simp_all [set_speed, Op.flush_fails]
    · rw [if_neg hany]
      exact h
  | close =>
    simp only [step, close]
    split_ifs <;> simpa using h

/-- C6, amended: every `set_speed` call whose three hardware steps succeed leaves the speed
configured on the device equal to `_last_baudrate`; and once the two are equal they stay
equal through every sequence of operations (`open`, `set_speed`, `add_speeds`, `read_msg`,
retry-timer firings, `close`) in which each speed change either succeeds or fails at
`TCGETS2` or `TCSETS2`. (After construction and after a failed first speed change the field
holds the persisted rate and need not equal the device speed.) -/
theorem C6_rate_in_sync_after_successful_set_speed (w : World) (ops : List Op)
    (hops : ∀ op ∈ ops, Op.flush_fails op = false)
    (h : w.tty_baud = w.ep._last_baudrate) :
    (run w ops).tty_baud = (run w ops).ep._last_baudrate ∧
    ∀ (v : World) (b : Nat),
      (set_speed v b .ok).2.tty_baud = (set_speed v b .ok).2.ep._last_baudrate ∧
      (set_speed v b .ok).2.tty_baud = b := by
  refine ⟨?_, fun v b => by simp [set_speed]⟩
  induction ops generalizing w with
  | nil => exact h
  | cons op ops ih =>
    exact ih (step w op) (fun o ho => hops o (List.mem_cons_of_mem _ ho))
      (rate_sync_step w op (hops op (List.mem_cons_self _ _)) h)

/-- C6, witness: the link configured to 57600 with its timer armed; a retry-timer firing
whose speed change fails at `TCGETS2`, a decode error, and a firing that succeeds. -/
theorem C6_rate_in_sync_after_successful_set_speed_witness :
    (run armed_link [.timeout_fired 0 .get_failed, .read_msg .CrcErrorMsg 0 true,
       .timeout_fired 0 .ok]).tty_baud =
    (run armed_link [.timeout_fired 0 .get_failed, .read_msg .CrcErrorMsg 0 true,
       .timeout_fired 0 .ok]).ep._last_baudrate :=
  (C6_rate_in_sync_after_successful_set_speed armed_link
    [.timeout_fired 0 .get_failed, .read_msg .CrcErrorMsg 0 true, .timeout_fired 0 .ok]
    (by decide) (by decide)).1

/-! ## One firing of the retry timer: the next rate -/

theorem vec_at_map (v : List Nat) (i oob : Nat) (h : i < v.length) :
    toU32 (vec_at v i oob) = (v.map toU32).get ⟨i, by simpa using h⟩ := by
  simp [vec_at, h]

theorem vec_at_inj (v : List Nat) (hnd : (v.map toU32).Nodup) (i j oob1 oob2 : Nat)
    (hi : i < v.length) (hj : j < v.length)
    (h : toU32 (vec_at v i oob1) = toU32 (vec_at v j oob2)) : i = j := by
  rw [vec_at_map v i oob1 hi, vec_at_map v j oob2 hj] at h
  have hinj := (List.nodup_iff_injective_get.mp hnd) h
  exact congrArg Fin.val hinj

theorem index_roundtrip (k : Nat) (h : k < 2147483648) : toSizeT (toI32 (k : Int)) = k := by
  rw [toI32_of_range _ (by omega) (by omega)]
  exact toSizeT_natCast k (by omega)

theorem index_succ (k : Nat) (h : k + 1 < 2147483648) :
    toSizeT (toI32 (toI32 (k : Int) + 1)) = k + 1 := by
  rw [toI32_of_range (k : Int) (by omega) (by omega)]
  rw [toI32_of_range _ (by omega) (by omega)]
  have h2 : ((k : Int) + 1) = ((k + 1 : Nat) : Int) := by push_cast; rfl
  rw [h2]
  exact toSizeT_natCast (k + 1) (by omega)

/-- With more than one candidate, fewer than `2^31` of them, and pairwise distinct 32-bit
values, the candidate chosen by lines 233-238 differs from `_last_baudrate`. -/
theorem next_baudrate_ne_last (ep : SerialEndpoint)
    (h1 : 1 < ep._available_baudrates.length)
    (h2 : ep._available_baudrates.length < 2147483648)
    (hnd : (ep._available_baudrates.map toU32).Nodup) :
    (next_baudrate ep).2 ≠ ep._last_baudrate ∧
    (next_baudrate ep).2 ∈ ep._available_baudrates.map toU32 := by
  have hn0 : 0 < ep._available_baudrates.length := by omega
  have hk1 : toSizeT (toI32 (ep._baudrate_index + 1)) % ep._available_baudrates.length <
      ep._available_baudrates.length := Nat.mod_lt _ hn0
  have hk2 : (toSizeT (toI32 (ep._baudrate_index + 1)) % ep._available_baudrates.length + 1) %
      ep._available_baudrates.length < ep._available_baudrates.length := Nat.mod_lt _ hn0
  have hmem : ∀ i, i < ep._available_baudrates.length →
      toU32 (vec_at ep._available_baudrates i 0) ∈ ep._available_baudrates.map toU32 := by
    intro i hi
    rw [vec_at_map _ i 0 hi]
    exact List.get_mem _ _ _
  unfold next_baudrate
  have hk1s : toSizeT (toI32 (ep._baudrate_index + 1)) % ep._available_baudrates.length + 1 <
      2147483648 := by omega
  simp only [index_roundtrip _ (lt_trans hk1 h2), index_succ _ hk1s,
    index_roundtrip _ (lt_trans hk2 h2)]
  split_ifs with heq
  · refine ⟨?_, hmem _ hk2⟩
    simp only
    intro hcontra
    have hij := vec_at_inj _ hnd _ _ 0 0 hk2 hk1 (hcontra.trans heq.symm)
    generalize toSizeT (toI32 (ep._baudrate_index + 1)) % ep._available_baudrates.length = k at hij hk1
    rcases Nat.lt_or_ge (k + 1) ep._available_baudrates.length with hlt | hge
    · rw [Nat.mod_eq_of_lt hlt] at hij
      omega
    · have hk : k + 1 = ep._available_baudrates.length := by omega
      rw [hk, Nat.mod_self] at hij
      omega
  · exact ⟨heq, hmem _ hk1⟩

/-- C5, counterexample: (a) with the candidate list `[57600, 57600, 115200]`, configured
to 57600 and attempt count 0, a firing of `_change_baudrate` with all hardware calls
succeeding sets the speed 57600 again, the speed configured before; (b) with candidates
`[57600, 115200]` a firing whose `TCGETS2` fails applies nothing: the device stays
at 57600; (c) with the persisted rate 57600, a device at 115200 and a first speed change
that failed at `TCGETS2`, the field `_last_baudrate` is 57600 while the device is at 115200,
and a firing with all hardware calls succeeding selects 115200: the device stays
at 115200. -/
theorem C5_firing_can_keep_the_rate :
    duplicate_candidates_link.ep._available_baudrates.length = 3 ∧
    duplicate_candidates_link.ep._try_count = 0 ∧
    duplicate_candidates_link.tty_baud = 57600 ∧
    duplicate_candidates_link.ep._last_baudrate = 57600 ∧
    (_change_baudrate duplicate_candidates_link .ok).1 = true ∧
    (_change_baudrate duplicate_candidates_link .ok).2.tty_baud = 57600 ∧
    (_change_baudrate duplicate_candidates_link .ok).2.ep._last_baudrate = 57600 ∧
    armed_link.tty_baud = 57600 ∧
    (_change_baudrate armed_link .get_failed).1 = true ∧
    (_change_baudrate armed_link .get_failed).2.tty_baud = 57600 ∧
    out_of_step_link.ep._available_baudrates = [57600, 115200] ∧
    out_of_step_link.ep._try_count = 0 ∧
    out_of_step_link.ep._last_baudrate = 57600 ∧
    out_of_step_link.tty_baud = 115200 ∧
    (_change_baudrate out_of_step_link .ok).1 = true ∧
    (_change_baudrate out_of_step_link .ok).2.tty_baud = 115200 := by
  decide

/-- C5, amended: for every link state with more than one candidate rate (fewer than `2^31`),
whose candidates are pairwise distinct as 32-bit speeds, and whose attempt count is below
2 x candidate-count, one firing of `_change_baudrate` returns true, selects a candidate that
differs from the current-rate field `_last_baudrate`, and passes it to `set_speed`. When the
hardware calls succeed, that rate is the one configured on the device and recorded in
`_last_baudrate` afterwards, so the recorded rate changes; the rate of the device changes
too whenever the device was at the recorded rate before the firing. -/
theorem C5_firing_selects_a_different_rate (w : World) (hw : IoctlOutcome)
    (h1 : 1 < w.ep._available_baudrates.length)
    (h2 : w.ep._available_baudrates.length < 2147483648)
    (hnd : (w.ep._available_baudrates.map toU32).Nodup)
    (htry : w.ep._try_count < 2 * w.ep._available_baudrates.length) :
    (_change_baudrate w hw).1 = true ∧
    (next_baudrate w.ep).2 ≠ w.ep._last_baudrate ∧
    (next_baudrate w.ep).2 ∈ w.ep._available_baudrates.map toU32 ∧
    (_change_baudrate w hw).2 =
      (set_speed
        { w with ep := { w.ep with _try_count := toU32 (w.ep._try_count + 1),
                                   _baudrate_index := (next_baudrate w.ep).1 } }
        (next_baudrate w.ep).2 hw).2 ∧
    (hw = .ok →
      (_change_baudrate w hw).2.tty_baud = (next_baudrate w.ep).2 ∧
      (_change_baudrate w hw).2.ep._last_baudrate = (next_baudrate w.ep).2 ∧
      (_change_baudrate w hw).2.ep._last_baudrate ≠ w.ep._last_baudrate ∧
      (w.tty_baud = w.ep._last_baudrate → (_change_baudrate w hw).2.tty_baud ≠ w.tty_baud)) := by
  have hsel := next_baudrate_ne_last w.ep h1 h2 hnd
  rw [change_baudrate_continue w hw htry]
  refine ⟨rfl, hsel.1, hsel.2, rfl, ?_⟩
  rintro rfl
  refine ⟨by simp [set_speed], by simp [set_speed], by simpa [set_speed] using hsel.1, ?_⟩
  intro hsync
  simp only [set_speed]
  rw [hsync]
  exact hsel.1

/-- C5, witness: the first firing on the link with candidates 57600 and 115200 that is
configured to 57600 moves the device to 115200. -/
theorem C5_firing_selects_a_different_rate_witness :
    (_change_baudrate armed_link .ok).2.tty_baud = (next_baudrate armed_link.ep).2 ∧
    (next_baudrate armed_link.ep).2 = 115200 ∧ armed_link.tty_baud = 57600 :=
  ⟨((C5_firing_selects_a_different_rate armed_link .ok (by decide) (by decide) (by decide)
      (by decide)).2.2.2.2 rfl).1, by decide, by decide⟩

/-! ## A negotiation that never sees a valid frame -/

theorem run_append (w : World) (xs ys : List Op) : run w (xs ++ ys) = run (run w xs) ys := by
  simp [run, List.foldl_append]

theorem negotiating_failed_read (h k : Nat) (bauds : List Nat) (w : World)
    (ret : ReadResult) (oob : Nat) (set_ok : Bool) (hret : ret ≠ .ReadOk)
    (hN : Negotiating h k bauds w) : Negotiating h k bauds (read_msg w ret oob set_ok).2 := by
  obtain ⟨h1, h2, h3, h4⟩ := hN
  cases ret with
  | ReadOk => exact absurd rfl hret
  | ReadUnkownMsg => constructor <;> simp [read_msg, h1, h2, h3, h4]
  | CrcErrorMsg => constructor <;> simp [read_msg, h1, h2, h3, h4]
  | other r => constructor <;> simp [read_msg, h1, h2, h3, h4]

theorem set_speed_frame (w : World) (b : Nat) (hw : IoctlOutcome) :
    (set_speed w b hw).2.timeouts = w.timeouts ∧
    (set_speed w b hw).2.ep._change_baudrate_timeout = w.ep._change_baudrate_timeout ∧
    (set_speed w b hw).2.ep._try_count = w.ep._try_count ∧
    (set_speed w b hw).2.ep._available_baudrates = w.ep._available_baudrates := by
  cases hw <;> simp [set_speed]

theorem negotiating_firing (h k : Nat) (bauds : List Nat) (w : World) (hw : IoctlOutcome)
    (hk : k < 2 * bauds.length) (hlen : bauds.length < 2147483648)
    (hN : Negotiating h k bauds w) :
    Negotiating h (k + 1) bauds (timeout_fired w h hw) ∧
    (_change_baudrate w hw).1 = true ∧
    timeout_fired w h hw = (_change_baudrate w hw).2 := by
  obtain ⟨h1, h2, h3, h4⟩ := hN
  have hany : (w.timeouts.any (fun x => x.handle = h)) = true := by simp [h2]
  have hlt : w.ep._try_count < 2 * w.ep._available_baudrates.length := by rw [h3, h4]; exact hk
  have hfire : timeout_fired w h hw = (_change_baudrate w hw).2 := by
    unfold timeout_fired
    rw [if_pos hany, change_baudrate_continue w hw hlt]
    rfl
  refine ⟨?_, by rw [change_baudrate_continue w hw hlt], hfire⟩
  rw [hfire, change_baudrate_continue w hw hlt]
  obtain ⟨f1, f2, f3, f4⟩ := set_speed_frame
    { w with ep := { w.ep with _try_count := toU32 (w.ep._try_count + 1),
                               _baudrate_index := (next_baudrate w.ep).1 } }
    (next_baudrate w.ep).2 hw
  constructor
  · rw [f2]; exact h1
  · rw [f1]; exact h2
  · rw [f3]
    simp only [h3]
    exact toU32_of_lt _ (by omega)
  · rw [f4]; exact h4

theorem negotiating_run (h : Nat) (bauds : List Nat) (hlen : bauds.length < 2147483648)
    (ops : List Op) :
    ∀ (k : Nat) (w : World), Negotiating h k bauds w →
      (∀ op ∈ ops, Op.in_negotiation h op = true) →
      k + firings h ops ≤ 2 * bauds.length →
      Negotiating h (k + firings h ops) bauds (run w ops) := by
  induction ops with
  | nil => intro k w hN _ _; simpa [firings, run] using hN
  | cons op ops ih =>
    intro k w hN hops hcount
    have hop := hops op (List.mem_cons_self _ _)
    have hrest : ∀ o ∈ ops, Op.in_negotiation h o = true :=
      fun o ho => hops o (List.mem_cons_of_mem _ ho)
    cases op with
    | timeout_fired t hw =>
      have ht : t = h := by simpa [Op.in_negotiation, Op.is_firing, Op.is_failed_read] using hop
      subst ht
      have hf : firings t (Op.timeout_fired t hw :: ops) = firings t ops + 1 := by
        simp [firings, Op.is_firing]
      rw [hf] at hcount ⊢
      have hstep := (negotiating_firing t k bauds w hw (by omega) hlen hN).1
      have := ih (k + 1) (timeout_fired w t hw) hstep hrest (by omega)
      have hk : k + (firings t ops + 1) = k + 1 + firings t ops := by omega
      rw [hk]
      exact this
    | read_msg ret oob set_ok =>
      have hret : ret ≠ .ReadOk := by
        simpa [Op.in_negotiation, Op.is_firing, Op.is_failed_read] using hop
      have hf : firings h (Op.read_msg ret oob set_ok :: ops) = firings h ops := by
        simp [firings, Op.is_firing]
      rw [hf] at hcount ⊢
      exact ih k _ (negotiating_failed_read h k bauds w ret oob set_ok hret hN) hrest hcount
    | «open» r => simp [Op.in_negotiation, Op.is_firing, Op.is_failed_read] at hop
    | set_speed b hw => simp [Op.in_negotiation, Op.is_firing, Op.is_failed_read] at hop
    | add_speeds bs hw => simp [Op.in_negotiation, Op.is_firing, Op.is_failed_read] at hop
    | close => simp [Op.in_negotiation, Op.is_firing, Op.is_failed_read] at hop

theorem failed_reads_rate (rs : List Op) :
    ∀ (w : World), (∀ op ∈ rs, Op.is_failed_read op = true) →
      (run w rs).tty_baud = w.tty_baud ∧ (run w rs).ep._last_baudrate = w.ep._last_baudrate := by
  induction rs with
  | nil => intro w _; exact ⟨rfl, rfl⟩
  | cons op rs ih =>
    intro w hrs
    have hop := hrs op (List.mem_cons_self _ _)
    have hrest := ih (step w op) (fun o ho => hrs o (List.mem_cons_of_mem _ ho))
    cases op with
    | read_msg ret oob set_ok =>
      have hr := read_msg_rate w ret oob set_ok
      exact ⟨hrest.1.trans hr.1, hrest.2.trans hr.2⟩
    | timeout_fired t hw => simp [Op.is_failed_read] at hop
    | «open» r => simp [Op.is_failed_read] at hop
    | set_speed b hw => simp [Op.is_failed_read] at hop
    | add_speeds bs hw => simp [Op.is_failed_read] at hop
    | close => simp [Op.is_failed_read] at hop

theorem firings_failed_reads (h : Nat) (rs : List Op)
    (hrs : ∀ op ∈ rs, Op.is_failed_read op = true) : firings h rs = 0 := by
  unfold firings
  rw [List.countP_eq_zero]
  intro op hop
  have := hrs op hop
  cases op <;> simp_all [Op.is_failed_read, Op.is_firing]

theorem in_negotiation_of_failed_read (h : Nat) (op : Op)
    (hop : Op.is_failed_read op = true) : Op.in_negotiation h op = true := by
  simp [Op.in_negotiation, hop]

/-- C2, counterexample: on the link with 2 candidates and a freshly armed timer, after
exactly 2 x 2 = 4 firings the negotiation has not cancelled itself: all four firings changed
the speed, the timer is still registered, the handle is still set and the attempt count is 4.
Only the fifth firing cancels. -/
theorem C2_still_armed_after_2n_firings :
    armed_link.ep._available_baudrates.length = 2 ∧
    armed_link.ep._try_count = 0 ∧
    armed_link.ep._change_baudrate_timeout = some 0 ∧
    (run armed_link [.timeout_fired 0 .ok, .timeout_fired 0 .ok, .timeout_fired 0 .ok,
      .timeout_fired 0 .ok]).timeouts = [⟨0, 3000⟩] ∧
    (run armed_link [.timeout_fired 0 .ok, .timeout_fired 0 .ok, .timeout_fired 0 .ok,
      .timeout_fired 0 .ok]).ep._change_baudrate_timeout = some 0 ∧
    (run armed_link [.timeout_fired 0 .ok, .timeout_fired 0 .ok, .timeout_fired 0 .ok,
      .timeout_fired 0 .ok]).ep._try_count = 4 ∧
    (run armed_link [.timeout_fired 0 .ok, .timeout_fired 0 .ok, .timeout_fired 0 .ok,
      .timeout_fired 0 .ok, .timeout_fired 0 .ok]).timeouts = [] := by
  decide

theorem run_cons (w : World) (op : Op) (ops : List Op) :
    run w (op :: ops) = run (step w op) ops := rfl

theorem negotiating_last_firing (h : Nat) (bauds : List Nat) (w : World) (hw : IoctlOutcome)
    (hN : Negotiating h (2 * bauds.length) bauds w) :
    (_change_baudrate w hw).1 = false ∧
    timeout_fired w h hw =
      { w with ep := { w.ep with _try_count := 0, _change_baudrate_timeout := none }
               timeouts := [] } := by
  obtain ⟨h1, h2, h3, h4⟩ := hN
  have hany : (w.timeouts.any (fun x => x.handle = h)) = true := by simp [h2]
  have hex : 2 * w.ep._available_baudrates.length ≤ w.ep._try_count := by rw [h3, h4]
  refine ⟨by rw [change_baudrate_exhausted w hw hex], ?_⟩
  unfold timeout_fired
  rw [if_pos hany, change_baudrate_exhausted w hw hex]
  simp [del_timeout, h2]

/-- C2, amended: take a link with `n` candidates (fewer than `2^31`) whose negotiation has
just been armed: handle set, its timer registered, attempt count 0. Let the timer fire with
no `ReadOk` outcome in between (other decode outcomes may occur anywhere). Then each of the
first `2 x n` firings returns true and takes the rate-changing branch: it counts the
attempt, selects the next candidate and calls `set_speed` with it (whether the device takes
the speed depends on the hardware calls). So after exactly `2 x n` firings the timer is
still registered, the handle still set and the attempt count is `2 x n`. The firing number
`2 x n + 1` returns false: after it the timer is deleted, the handle is cleared and the
attempt count is zero. The speed of the device and `_last_baudrate` are then the ones left
by firing number `2 x n`, the last one of the rate-changing branch: the candidate it
selected, when its hardware calls succeeded. -/
theorem C2_negotiation_cancels_at_firing_2n_plus_1 (w : World) (h : Nat)
    (pre rs : List Op) (hw hwLast : IoctlOutcome)
    (hlen : w.ep._available_baudrates.length < 2147483648)
    (harm : w.ep._change_baudrate_timeout = some h)
    (htim : w.timeouts = [⟨h, 3000⟩])
    (htry : w.ep._try_count = 0)
    (hpre : ∀ op ∈ pre, Op.in_negotiation h op = true)
    (hcount : firings h pre + 1 = 2 * w.ep._available_baudrates.length)
    (hrs : ∀ op ∈ rs, Op.is_failed_read op = true) :
    (_change_baudrate (run w pre) hw).1 = true ∧
    (run w (pre ++ .timeout_fired h hw :: rs)).timeouts = [⟨h, 3000⟩] ∧
    (run w (pre ++ .timeout_fired h hw :: rs)).ep._change_baudrate_timeout = some h ∧
    (run w (pre ++ .timeout_fired h hw :: rs)).ep._try_count =
      2 * w.ep._available_baudrates.length ∧
    (_change_baudrate (run w (pre ++ .timeout_fired h hw :: rs)) hwLast).1 = false ∧
    (run w (pre ++ .timeout_fired h hw :: rs ++ [.timeout_fired h hwLast])).timeouts = [] ∧
    (run w (pre ++ .timeout_fired h hw :: rs ++
      [.timeout_fired h hwLast])).ep._change_baudrate_timeout = none ∧
    (run w (pre ++ .timeout_fired h hw :: rs ++ [.timeout_fired h hwLast])).ep._try_count = 0 ∧
    (run w (pre ++ .timeout_fired h hw :: rs ++ [.timeout_fired h hwLast])).tty_baud =
      (run w (pre ++ [.timeout_fired h hw])).tty_baud ∧
    (run w (pre ++ .timeout_fired h hw :: rs ++ [.timeout_fired h hwLast])).ep._last_baudrate =
      (run w (pre ++ [.timeout_fired h hw])).ep._last_baudrate ∧
    (hw = .ok →
      (run w (pre ++ .timeout_fired h hw :: rs ++ [.timeout_fired h hwLast])).tty_baud =
        (next_baudrate (run w pre).ep).2 ∧
      (run w (pre ++ .timeout_fired h hw :: rs ++ [.timeout_fired h hwLast])).ep._last_baudrate =
        (next_baudrate (run w pre).ep).2) ∧
    (run w (pre ++ [.timeout_fired h hw]) = (_change_baudrate (run w pre) hw).2 ∧
     (_change_baudrate (run w pre) hw).2 =
      (set_speed
        { run w pre with
          ep := { (run w pre).ep with
                  _try_count := toU32 ((run w pre).ep._try_count + 1),
                  _baudrate_index := (next_baudrate (run w pre).ep).1 } }
        (next_baudrate (run w pre).ep).2 hw).2) ∧
    (∀ (p1 p2 : List Op) (hwk : IoctlOutcome), pre = p1 ++ .timeout_fired h hwk :: p2 →
      (_change_baudrate (run w p1) hwk).1 = true ∧
      run w (p1 ++ [.timeout_fired h hwk]) = (_change_baudrate (run w p1) hwk).2 ∧
      (_change_baudrate (run w p1) hwk).2 =
        (set_speed
          { run w p1 with
            ep := { (run w p1).ep with
                    _try_count := toU32 ((run w p1).ep._try_count + 1),
                    _baudrate_index := (next_baudrate (run w p1).ep).1 } }
          (next_baudrate (run w p1).ep).2 hwk).2) := by
  -- the state before firing number 2n
  have hN0 : Negotiating h 0 w.ep._available_baudrates w := ⟨harm, htim, htry, rfl⟩
  have hN1 := negotiating_run h _ hlen pre 0 w hN0 hpre (by omega)
  -- firing number 2n
  have hfire := negotiating_firing h _ _ (run w pre) hw (by omega) hlen hN1
  obtain ⟨hN2, hret, hstate⟩ := hfire
  -- the decode errors after it
  have hN3 := negotiating_run h _ hlen rs _ (timeout_fired (run w pre) h hw) hN2
    (fun op hop => in_negotiation_of_failed_read h op (hrs op hop))
    (by rw [firings_failed_reads h rs hrs]; omega)
  rw [firings_failed_reads h rs hrs] at hN3
  have hk : 0 + firings h pre + 1 + 0 = 2 * w.ep._available_baudrates.length := by omega
  rw [hk] at hN3
  have hrate := failed_reads_rate rs (timeout_fired (run w pre) h hw) hrs
  have hlast := negotiating_last_firing h _ (run (timeout_fired (run w pre) h hw) rs) hwLast hN3
  have e1 : run w (pre ++ .timeout_fired h hw :: rs) =
      run (timeout_fired (run w pre) h hw) rs := by
    rw [run_append, run_cons]; rfl
  have e2 : run w (pre ++ .timeout_fired h hw :: rs ++ [.timeout_fired h hwLast]) =
      timeout_fired (run (timeout_fired (run w pre) h hw) rs) h hwLast := by
    rw [run_append, e1]; rfl
  have e3 : run w (pre ++ [.timeout_fired h hw]) = timeout_fired (run w pre) h hw := by
    rw [run_append]; rfl
  have hlt : (run w pre).ep._try_count < 2 * (run w pre).ep._available_baudrates.length := by
    rw [hN1.tries, hN1.cands]; omega
  rw [e1, e2, e3, hlast.2]
  refine ⟨hret, hN3.timers, hN3.handle, hN3.tries, hlast.1, rfl, rfl, rfl, hrate.1, hrate.2,
    ?_, ⟨hstate, ?_⟩, ?_⟩
  · rintro rfl
    have hsel : (timeout_fired (run w pre) h .ok).tty_baud = (next_baudrate (run w pre).ep).2 ∧
        (timeout_fired (run w pre) h .ok).ep._last_baudrate =
          (next_baudrate (run w pre).ep).2 := by
      rw [hstate, change_baudrate_continue _ _ hlt]
      simp [set_speed]
    exact ⟨hrate.1.trans hsel.1, hrate.2.trans hsel.2⟩
  · rw [change_baudrate_continue _ _ hlt]
  · -- the firings before number 2n
    intro p1 p2 hwk hsplit
    have hp1 : ∀ op ∈ p1, Op.in_negotiation h op = true := by
      intro op hop
      exact hpre op (by rw [hsplit]; exact List.mem_append_left _ hop)
    have hfir : firings h pre = firings h p1 + (firings h p2 + 1) := by
      rw [hsplit]
      simp [firings, List.countP_append, Op.is_firing]
    have hNp := negotiating_run h _ hlen p1 0 w hN0 hp1 (by omega)
    obtain ⟨_, hretk, hstatek⟩ :=
      negotiating_firing h _ _ (run w p1) hwk (by omega) hlen hNp
    have hltk : (run w p1).ep._try_count < 2 * (run w p1).ep._available_baudrates.length := by
      rw [hNp.tries, hNp.cands]; omega
    refine ⟨hretk, ?_, ?_⟩
    · rw [run_append]
      exact hstatek
    · rw [change_baudrate_continue _ _ hltk]

/-- C2, witness: the link with candidates 57600 and 115200; three firings interleaved with
decode errors, the fourth firing, one more decode error, and the fifth firing. -/
theorem C2_negotiation_cancels_at_firing_2n_plus_1_witness :
    (run armed_link ([.timeout_fired 0 .ok, .read_msg .CrcErrorMsg 0 true, .timeout_fired 0 .ok,
        .timeout_fired 0 .set_failed] ++ .timeout_fired 0 .ok :: [.read_msg (.other 0) 0 true] ++
        [.timeout_fired 0 .ok])).timeouts = [] ∧
    (run armed_link ([.timeout_fired 0 .ok, .read_msg .CrcErrorMsg 0 true, .timeout_fired 0 .ok,
        .timeout_fired 0 .set_failed] ++ .timeout_fired 0 .ok :: [.read_msg (.other 0) 0 true] ++
        [.timeout_fired 0 .ok])).tty_baud = 115200 :=
  ⟨(C2_negotiation_cancels_at_firing_2n_plus_1 armed_link 0
      [.timeout_fired 0 .ok, .read_msg .CrcErrorMsg 0 true, .timeout_fired 0 .ok,
        .timeout_fired 0 .set_failed]
      [.read_msg (.other 0) 0 true] .ok .ok
      (by decide) (by decide) (by decide) (by decide) (by decide) (by decide)
      (by decide)).2.2.2.2.2.1, by decide⟩

/-! ## A valid frame during a negotiation -/

/-- On `ReadOk` with the timer armed, `read_msg` cancels the timer, clears the handle, zeroes
both counters, and hands `_available_baudrates[_baudrate_index]` to
`_save_baudrate_property`. -/
theorem read_msg_ok_armed (w : World) (t oob : Nat) (set_ok : Bool)
    (harm : w.ep._change_baudrate_timeout = some t) :
    (read_msg w .ReadOk oob set_ok).2.timeouts = w.timeouts.filter (fun x => x.handle ≠ t) ∧
    (read_msg w .ReadOk oob set_ok).2.ep._change_baudrate_timeout = none ∧
    (read_msg w .ReadOk oob set_ok).2.ep._read_error_count = 0 ∧
    (read_msg w .ReadOk oob set_ok).2.ep._try_count = 0 ∧
    (read_msg w .ReadOk oob set_ok).2.tty_baud = w.tty_baud ∧
    (set_ok = true → (read_msg w .ReadOk oob set_ok).2.property =
      some (formatU (toU32
        (vec_at w.ep._available_baudrates (toSizeT w.ep._baudrate_index) oob)))) := by
  cases set_ok <;> simp [read_msg, harm, del_timeout, _save_baudrate_property]

/-- C3, the code at the failing inputs. (a) On the link with candidates 57600 and 115200,
configured to 57600, whose timer has just been armed and has not fired, `_baudrate_index` is
still -1; a `ReadOk` outcome cancels the timer and zeroes the counters, but the value it
persists is the out-of-range element `_available_baudrates[-1]` (here the memory content 33),
not the configured 57600. (b) After one firing whose speed change failed at `TCGETS2` the
device is still at 57600 and `ReadOk` persists the candidate 115200. -/
theorem C3_persisted_rate_is_not_the_configured_rate :
    armed_link.ep._baudrate_index = -1 ∧
    armed_link.tty_baud = 57600 ∧
    armed_link.ep._last_baudrate = 57600 ∧
    (read_msg armed_link .ReadOk 33 true).2.timeouts = [] ∧
    (read_msg armed_link .ReadOk 33 true).2.ep._change_baudrate_timeout = none ∧
    (read_msg armed_link .ReadOk 33 true).2.ep._read_error_count = 0 ∧
    (read_msg armed_link .ReadOk 33 true).2.ep._try_count = 0 ∧
    (read_msg armed_link .ReadOk 33 true).2.tty_baud = 57600 ∧
    (read_msg armed_link .ReadOk 33 true).2.property = some "33".toList ∧
    (timeout_fired armed_link 0 .get_failed).tty_baud = 57600 ∧
    (timeout_fired armed_link 0 .get_failed).ep._last_baudrate = 57600 ∧
    (read_msg (timeout_fired armed_link 0 .get_failed) .ReadOk 33 true).2.tty_baud = 57600 ∧
    (read_msg (timeout_fired armed_link 0 .get_failed) .ReadOk 33 true).2.property =
      some "115200".toList := by
  decide

/-! ## The parser rejects what it does not recognise -/

theorem split_colon_decomp (cs : List Char) :
    ∃ tl, split_colon cs = cs.takeWhile (fun ch => ch ≠ ':') :: tl ∧
      tl.filter (fun f => f ≠ []) = fields ((cs.dropWhile (fun ch => ch ≠ ':')).drop 1) := by
  induction cs with
  | nil => exact ⟨[], by simp [split_colon], by simp [fields, split_colon]⟩
  | cons c cs ih =>
    by_cases hc : c = ':'
    · subst hc
      exact ⟨split_colon cs, by simp [split_colon], by simp [fields]⟩
    · obtain ⟨tl, h1, h2⟩ := ih
      refine ⟨tl, ?_, ?_⟩
      · simp [split_colon, hc, h1]
      · simpa [hc] using h2

/-- The tokens `strtok` hands out one after the other are the non-empty fields. -/
theorem fields_eq_strtok (s : List Char) :
    fields s = match strtok s with
      | none => []
      | some (t, r) => t :: fields r := by
  induction s with
  | nil => simp [fields, split_colon, strtok]
  | cons c cs ih =>
    by_cases hc : c = ':'
    · subst hc
      have h1 : fields (':' :: cs) = fields cs := by simp [fields, split_colon]
      have h2 : strtok (':' :: cs) = strtok cs := by simp [strtok]
      rw [h1, h2]
      exact ih
    · obtain ⟨tl, h1, h2⟩ := split_colon_decomp (c :: cs)
      have h3 : strtok (c :: cs) =
          some ((c :: cs).takeWhile (fun ch => ch ≠ ':'),
                ((c :: cs).dropWhile (fun ch => ch ≠ ':')).drop 1) := by
        simp [strtok, hc]
      rw [h3]
      simp only [fields, h1]
      rw [List.filter_cons_of_pos (by simp [hc])]
      rw [h2]
      rfl

/-- C1, counterexample: none of these datagrams is of the form `COMMAND:ADDRESS:PORT` with
exactly three fields, an address of at most 15 characters and a decimal port, yet
`_parse_msg` returns true on each (the acknowledgement is OK), invokes the add-endpoint
operation and changes the registry: (a) `ADDENDPOINT:1.2.3.4:14550:x` has four fields;
(b) `::ADDENDPOINT::1.2.3.4:14550` has empty fields; (c) `ADDENDPOINT:1.2.3.4:12abc` has
the port `12abc`, read as 12; (d) `ADDENDPOINT:1234567890123456:14550` has an address of 16
characters. -/
theorem C1_malformed_datagrams_accepted :
    spec_request four_field_datagram = false ∧
    (_parse_msg list_registry ⟨[], []⟩ four_field_datagram four_field_datagram.length).1 = true ∧
    (handle_read list_registry ⟨[], []⟩ [] (some four_field_datagram)).1 = some ACK_OK ∧
    (_parse_msg list_registry ⟨[], []⟩ four_field_datagram four_field_datagram.length).2.calls =
      [.udp_new, .udp_open "1.2.3.4".toList 14550, .add_udp_endpoint "1.2.3.4".toList 14550] ∧
    (_parse_msg list_registry ⟨[], []⟩ four_field_datagram
      four_field_datagram.length).2.mainloop = [("1.2.3.4".toList, 14550)] ∧
    spec_request "::ADDENDPOINT::1.2.3.4:14550".toList = false ∧
    (handle_read list_registry ⟨[], []⟩ [] (some "::ADDENDPOINT::1.2.3.4:14550".toList)).1 =
      some ACK_OK ∧
    (handle_read list_registry ⟨[], []⟩ []
      (some "::ADDENDPOINT::1.2.3.4:14550".toList)).2.mainloop = [("1.2.3.4".toList, 14550)] ∧
    spec_request "ADDENDPOINT:1.2.3.4:12abc".toList = false ∧
    (handle_read list_registry ⟨[], []⟩ [] (some "ADDENDPOINT:1.2.3.4:12abc".toList)).1 =
      some ACK_OK ∧
    (handle_read list_registry ⟨[], []⟩ []
      (some "ADDENDPOINT:1.2.3.4:12abc".toList)).2.mainloop = [("1.2.3.4".toList, 12)] ∧
    spec_request "ADDENDPOINT:1234567890123456:14550".toList = false ∧
    (handle_read list_registry ⟨[], []⟩ []
      (some "ADDENDPOINT:1234567890123456:14550".toList)).1 = some ACK_OK ∧
    (handle_read list_registry ⟨[], []⟩ []
      (some "ADDENDPOINT:1234567890123456:14550".toList)).2.mainloop =
        [("1234567890123456".toList, 14550)] := by
  decide

/-- What `_parse_msg` does not recognise it rejects without touching anything. -/
theorem parse_msg_rejects {M : Type} (env : Collaborators M)
    (c : Controller M) (msg : List Char) (len : Int) (hbad : actionable msg len = false) :
    _parse_msg env c msg len = (false, c) := by
  unfold _parse_msg
  simp only
  by_cases hlen : len > (COMMAND_LEN_MAX : Int) ∨ (c_str msg).length > COMMAND_LEN_MAX
  · rw [if_pos hlen]
  · rw [if_neg hlen]
    have hl1 : len ≤ 256 := by
      have : ¬ len > (COMMAND_LEN_MAX : Int) := fun h => hlen (Or.inl h)
      simp [COMMAND_LEN_MAX] at this
      exact this
    have hl2 : (c_str msg).length ≤ 256 := by
      have : ¬ (c_str msg).length > COMMAND_LEN_MAX := fun h => hlen (Or.inr h)
      simp [COMMAND_LEN_MAX] at this
      exact this
    have hf1 := fields_eq_strtok (c_str msg)
    cases h1 : strtok (c_str msg) with
    | none => rfl
    | some tr1 =>
      obtain ⟨str, rest1⟩ := tr1
      rw [h1] at hf1
      simp only at hf1 ⊢
      have hf2 := fields_eq_strtok rest1
      cases h2 : strtok rest1 with
      | none => simp
      | some tr2 =>
        obtain ⟨ipaddress, rest2⟩ := tr2
        rw [h2] at hf2
        simp only at hf2 ⊢
        have hf3 := fields_eq_strtok rest2
        cases h3 : strtok rest2 with
        | none => simp
        | some tr3 =>
          obtain ⟨str2, rest3⟩ := tr3
          rw [h3] at hf3
          simp only at hf3 ⊢
          by_cases hport : atoi str2 > 0
          · by_cases hcmd : str = ADD_ENDPOINT_COMMAND ∨ str = REMOVE_ENDPOINT_COMMAND
            · have hgood : actionable msg len = true := by
                simp only [actionable, hf1, hf2, hf3]
                rcases hcmd with h | h <;> simp [h, hl1, hl2, hport]
              rw [hgood] at hbad
              exact absurd hbad (by decide)
            · have ha : str ≠ ADD_ENDPOINT_COMMAND := fun h => hcmd (Or.inl h)
              have hr : str ≠ REMOVE_ENDPOINT_COMMAND := fun h => hcmd (Or.inr h)
              simp [ha, hr]
          · simp [hport]

theorem c_str_append (msg rest : List Char) :
    c_str (msg ++ rest) = c_str msg ∨
    (c_str (msg ++ rest) = msg ++ c_str rest ∧ c_str msg = msg) := by
  induction msg with
  | nil => right; simp [c_str]
  | cons ch cs ih =>
    by_cases hz : ch.toNat = 0
    · left; simp [c_str, hz]
    · have hp : decide (ch.toNat ≠ 0) = true := by simp [hz]
      rcases ih with h | ⟨h1, h2⟩
      · left
        unfold c_str at h ⊢
        simp only [List.cons_append, List.takeWhile_cons, hp, if_true, h]
      · right
        unfold c_str at h1 h2 ⊢
        simp only [List.cons_append, List.takeWhile_cons, hp, if_true, h1, h2, and_self]

/-- The C string the parser sees in the receive buffer is the one of the datagram, or it
runs on past the buffer and is longer than `READ_BUF_SIZE`. -/
theorem c_str_buffer (msg beyond : List Char) (h : msg.length ≤ READ_BUF_SIZE) :
    c_str (msg ++ List.replicate (READ_BUF_SIZE - msg.length) (Char.ofNat 0) ++ beyond) =
      c_str msg ∨
    256 < (c_str (msg ++ List.replicate (READ_BUF_SIZE - msg.length) (Char.ofNat 0) ++
      beyond)).length := by
  rw [List.append_assoc]
  rcases c_str_append msg
      (List.replicate (READ_BUF_SIZE - msg.length) (Char.ofNat 0) ++ beyond) with h1 | ⟨h1, h2⟩
  · exact Or.inl h1
  · by_cases hk : READ_BUF_SIZE - msg.length = 0
    · have hfull : msg.length = 256 := by
        simp only [READ_BUF_SIZE] at hk h
        omega
      rw [h1, hk]
      simp only [List.replicate_zero, List.nil_append, List.length_append]
      by_cases hb : c_str beyond = []
      · left; rw [hb, h2]; simp
      · right
        have : 0 < (c_str beyond).length := List.length_pos.mpr hb
        omega
    · left
      obtain ⟨k, hk2⟩ := Nat.exists_eq_succ_of_ne_zero hk
      rw [h1, hk2, h2]
      simp [c_str, List.replicate_succ]

/-- C1, amended: for every datagram handed to `_parse_msg`: unless the datagram is at most
256 bytes long and, read up to its first NUL and with empty fields skipped, has at least
three colon-separated fields of which the first is ADDENDPOINT or REMOVEENDPOINT and the
third has a leading decimal value (`atoi`) greater than 0, the parser returns false (the
acknowledgement is FAIL), neither operation is invoked and the registry is unchanged. -/
theorem C1_unrecognised_datagram_rejected {M : Type} (env : Collaborators M)
    (c : Controller M) (msg : List Char) (len : Int) (hbad : actionable msg len = false) :
    _parse_msg env c msg len = (false, c) ∧
    (∀ beyond : List Char, len = msg.length → msg ≠ [] → msg.length ≤ READ_BUF_SIZE →
      handle_read env c beyond (some msg) = (some ACK_FAIL, c)) := by
  refine ⟨parse_msg_rejects env c msg len hbad, ?_⟩
  intro beyond hl hne hsz
  have htake : msg.take READ_BUF_SIZE = msg := List.take_of_length_le hsz
  have hlen0 : msg.length ≠ 0 := by
    intro h
    exact hne (List.length_eq_zero.mp h)
  have hmem : actionable
      (msg ++ List.replicate (READ_BUF_SIZE - msg.length) (Char.ofNat 0) ++ beyond) len =
      false := by
    rcases c_str_buffer msg beyond hsz with h | h
    · have : actionable
          (msg ++ List.replicate (READ_BUF_SIZE - msg.length) (Char.ofNat 0) ++ beyond) len =
          actionable msg len := by
        simp only [actionable, h]
      rw [this]
      exact hbad
    · have hn : ¬ (c_str (msg ++ List.replicate (READ_BUF_SIZE - msg.length) (Char.ofNat 0) ++
          beyond)).length ≤ 256 := by omega
      unfold actionable
      rw [decide_eq_false hn]
      simp
  simp only [handle_read, htake, if_neg hlen0]
  rw [← hl, parse_msg_rejects env c _ len hmem]
  simp

/-- C1, witness: the datagram `ADDENDPOINT:1.2.3.4:0`, whose port is not positive. -/
theorem C1_unrecognised_datagram_rejected_witness :
    _parse_msg list_registry ⟨[("1.2.3.4".toList, 14550)], []⟩
        "ADDENDPOINT:1.2.3.4:0".toList 21 =
      (false, ⟨[("1.2.3.4".toList, 14550)], []⟩) :=
  (C1_unrecognised_datagram_rejected list_registry ⟨[("1.2.3.4".toList, 14550)], []⟩
    "ADDENDPOINT:1.2.3.4:0".toList 21 (by decide)).1

/-! ## Adding an endpoint -/

/-- The acknowledgement of `_add_dynamic_endpoint` is OK exactly when both the open and the
registration succeed; when the open fails the registry is not called. -/
theorem add_dynamic_endpoint_ack {M : Type} (env : Collaborators M) (c : Controller M)
    (ipaddr : List Char) (port : Nat) :
    ((_add_dynamic_endpoint env c ipaddr port).1 = true ↔
      (0 ≤ env.udp_open ipaddr port ∧ (env.add_udp_endpoint c.mainloop ipaddr port).1 = true)) ∧
    (env.udp_open ipaddr port < 0 →
      (_add_dynamic_endpoint env c ipaddr port).2.mainloop = c.mainloop ∧
      (_add_dynamic_endpoint env c ipaddr port).2.calls =
        c.calls ++ [.udp_new, .udp_open ipaddr port]) ∧
    ((0 ≤ env.udp_open ipaddr port ∧ (env.add_udp_endpoint c.mainloop ipaddr port).1 = false) →
      (_add_dynamic_endpoint env c ipaddr port).2.calls =
        c.calls ++ [.udp_new, .udp_open ipaddr port, .add_udp_endpoint ipaddr port,
          .udp_close, .udp_delete]) := by
  by_cases hopen : env.udp_open ipaddr port < 0
  · have hn : ¬ (0 ≤ env.udp_open ipaddr port) := by omega
    simp [_add_dynamic_endpoint, hopen, hn, unique_ptr_scope_exit, Controller.call]
  · have hn : 0 ≤ env.udp_open ipaddr port := by omega
    cases hadd : (env.add_udp_endpoint c.mainloop ipaddr port).1 <;>
      simp [_add_dynamic_endpoint, hopen, hn, hadd, unique_ptr_scope_exit, Controller.call]

/-- C7, the code at the failing input: the request `ADDENDPOINT:1.2.3.4:14550` on a system
where `UdpEndpoint::open` fails is answered FAIL and the registry is not called, but the
endpoint object that was constructed is never deleted: the calls end with the failed open.
When instead the registration fails (the pair is registered already), the endpoint is closed
and deleted. -/
theorem C7_endpoint_not_deleted_when_open_fails :
    (handle_read failing_open_registry ⟨[], []⟩ []
      (some "ADDENDPOINT:1.2.3.4:14550".toList)).1 = some ACK_FAIL ∧
    (handle_read failing_open_registry ⟨[], []⟩ []
      (some "ADDENDPOINT:1.2.3.4:14550".toList)).2.calls =
        [.udp_new, .udp_open "1.2.3.4".toList 14550] ∧
    Call.udp_delete ∉ (handle_read failing_open_registry ⟨[], []⟩ []
      (some "ADDENDPOINT:1.2.3.4:14550".toList)).2.calls ∧
    (handle_read list_registry ⟨[("1.2.3.4".toList, 14550)], []⟩ []
      (some "ADDENDPOINT:1.2.3.4:14550".toList)).1 = some ACK_FAIL ∧
    (handle_read list_registry ⟨[("1.2.3.4".toList, 14550)], []⟩ []
      (some "ADDENDPOINT:1.2.3.4:14550".toList)).2.calls =
        [.udp_new, .udp_open "1.2.3.4".toList 14550, .add_udp_endpoint "1.2.3.4".toList 14550,
          .udp_close, .udp_delete] := by
  decide

end MavlinkRouter
